import Mathlib

/-!
Shallow embedding of the core reconciliation engine of the event-manager
controller (EventTrigger deploy/undeploy decision logic, fingerprinting,
template expansion bookkeeping, stale-artifact cleanup), together with
theorems settling the frozen claims about it.

Go slices of bytes are modelled as `List Nat` (each entry < 256 where it
matters), Go maps as association lists, `error` returns as `Option String`
or `Except String`, and the asynchronous dispatcher as an environment of
results passed explicitly.  External effects (client reads and writes,
dispatcher submissions) are recorded as explicit action lists.
-/

deriving instance DecidableEq for Except

/-- Cluster types distinguished by the controller (CAPI vs Sveltos). -/
inductive ClusterType
  | capi
  | sveltos
deriving DecidableEq

/-- A `corev1.ObjectReference` identifying a cluster. -/
structure ClusterRef where
  kind : String
  ns : String
  name : String
deriving DecidableEq

/-- `clusterproxy.GetClusterType`: the cluster type is derived from the
reference's kind (`SveltosCluster` vs CAPI `Cluster`). -/
def getClusterType (c : ClusterRef) : ClusterType :=
  if c.kind = "SveltosCluster" then ClusterType.sveltos else ClusterType.capi

/-- `libsveltosv1beta1.SveltosFeatureStatus`. -/
inductive SveltosFeatureStatus
  | provisioning
  | provisioned
  | failed
  | removing
  | removed
deriving DecidableEq

/-- `deployer.ResultStatus` returned by the dispatcher. -/
inductive ResultStatus
  | deployed
  | failed
  | inProgress
  | removed
  | unavailable
deriving DecidableEq

/-- `deployer.Result`: a result status plus the handler error (`Err`),
modelled as the error text when non-nil. -/
structure DeployerResult where
  resultStatus : ResultStatus
  err : Option String
deriving DecidableEq

/-- `libsveltosv1beta1.ClusterInfo`: one status entry per (trigger, cluster).
`hash` models the `[]byte` field (`none` = Go nil slice), `failureMessage`
models the `*string` field. -/
structure ClusterInfo where
  cluster : ClusterRef
  status : SveltosFeatureStatus
  hash : Option (List Nat)
  failureMessage : Option String
deriving DecidableEq

/-- ASCII bytes of a string (all strings involved are ASCII). -/
def strBytes (s : String) : List Nat :=
  s.toList.map Char.toNat

/-- The standard base64 alphabet, as used by `encoding/base64.StdEncoding`. -/
def base64Alphabet : List Char :=
  "ABCDEFGHIJKLMNOPQRSTUVWXYZabcdefghijklmnopqrstuvwxyz0123456789+/".toList

/-- Character for a 6-bit group. -/
def base64Char (n : Nat) : Char :=
  base64Alphabet.getD n 'A'

/-- `base64.StdEncoding.EncodeToString` over a byte list. -/
def base64Encode : List Nat → List Char
  | [] => []
  | [b0] =>
    [base64Char (b0 / 4), base64Char (b0 % 4 * 16), '=', '=']
  | [b0, b1] =>
    [base64Char (b0 / 4), base64Char (b0 % 4 * 16 + b1 / 16),
     base64Char (b1 % 16 * 4), '=']
  | b0 :: b1 :: b2 :: rest =>
    base64Char (b0 / 4) :: base64Char (b0 % 4 * 16 + b1 / 16) ::
    base64Char (b1 % 16 * 4 + b2 / 64) :: base64Char (b2 % 64) ::
    base64Encode rest

/-- The sentinel hash `base64.StdEncoding.EncodeToString([]byte("empty"))`
written into a shard-foreign `ClusterInfo` whose hash is nil
(`deployEventTrigger`). The Go code stores the bytes of that string. -/
def sentinelHash : List Nat :=
  (base64Encode (strBytes "empty")).map Char.toNat

/-- `isClusterInfoForCluster`: does a `ClusterInfo` entry refer to the
cluster identified by namespace, name and cluster type? -/
def isClusterInfoForCluster (ci : ClusterInfo) (clusterNamespace clusterName : String)
    (clusterType : ClusterType) : Bool :=
  ci.cluster.ns = clusterNamespace && ci.cluster.name = clusterName &&
    getClusterType ci.cluster = clusterType

/-- `remove`: Go swap-remove on `Status.ClusterInfo`
(`s[i] = s[len(s)-1]; return s[:len(s)-1]`). -/
def removeAt (s : List ClusterInfo) (i : Nat) : List ClusterInfo :=
  match s.getLast? with
  | none => []
  | some last => (s.set i last).dropLast

/-- `removeClusterInfoEntry` (single optimistic attempt, no API conflict):
scan `Status.ClusterInfo`, swap-remove the first entry for the given
cluster and issue a status update; if no entry matches, do nothing.
Returns the resulting list and whether a status update was issued. -/
def removeClusterInfoEntry (infos : List ClusterInfo)
    (clusterNamespace clusterName : String) (clusterType : ClusterType) :
    List ClusterInfo × Bool :=
  match infos.findIdx? (fun cc => isClusterInfoForCluster cc clusterNamespace clusterName clusterType) with
  | some i => (removeAt infos i, true)
  | none => (infos, false)

/-- `getInstantiatedObjectName`: resolve the name of a derived object from
the list of existing objects carrying the identifying label set.  `objects`
holds the names of the existing matches; `rnd` models the outcome of
`util.RandomString(20)`.  Returns the name and whether the object must be
created. -/
def getInstantiatedObjectName (objects : List String) (rnd : String) :
    Except String (String × Bool) :=
  match objects with
  | [] => Except.ok ("sveltos-" ++ rnd, true)
  | [o] => Except.ok (o, false)
  | _ => Except.error "more than one resource"

/-- `getClusterProfileName`: list the ClusterProfiles carrying the label
set (the match names are passed in) and resolve via
`getInstantiatedObjectName`. -/
def getClusterProfileName (found : List String) (rnd : String) :
    Except String (String × Bool) :=
  getInstantiatedObjectName found rnd

/-- Truncate to 32 bits. -/
def w32 (n : Nat) : Nat := n % 4294967296

/-- 32-bit modular addition. -/
def wadd (a b : Nat) : Nat := w32 (a + b)

/-- 32-bit right rotation. -/
def rotr32 (x n : Nat) : Nat := w32 ((x >>> n) ||| (x <<< (32 - n)))

/-- SHA-256 Ch function (the bitwise complement is xor with 2^32 - 1). -/
def chF (x y z : Nat) : Nat := (x &&& y) ^^^ ((x ^^^ 4294967295) &&& z)

/-- SHA-256 Maj function. -/
def majF (x y z : Nat) : Nat := (x &&& y) ^^^ (x &&& z) ^^^ (y &&& z)

/-- SHA-256 Σ0. -/
def bigSigma0 (x : Nat) : Nat := rotr32 x 2 ^^^ rotr32 x 13 ^^^ rotr32 x 22

/-- SHA-256 Σ1. -/
def bigSigma1 (x : Nat) : Nat := rotr32 x 6 ^^^ rotr32 x 11 ^^^ rotr32 x 25

/-- SHA-256 σ0. -/
def smallSigma0 (x : Nat) : Nat := rotr32 x 7 ^^^ rotr32 x 18 ^^^ (x >>> 3)

/-- SHA-256 σ1. -/
def smallSigma1 (x : Nat) : Nat := rotr32 x 17 ^^^ rotr32 x 19 ^^^ (x >>> 10)

/-- The 64 SHA-256 round constants (FIPS 180-4, written in decimal). -/
def sha256K : List Nat :=
  [1116352408, 1899447441, 3049323471, 3921009573, 961987163, 1508970993,
   2453635748, 2870763221, 3624381080, 310598401, 607225278, 1426881987,
   1925078388, 2162078206, 2614888103, 3248222580, 3835390401, 4022224774,
   264347078, 604807628, 770255983, 1249150122, 1555081692, 1996064986,
   2554220882, 2821834349, 2952996808, 3210313671, 3336571891, 3584528711,
   113926993, 338241895, 666307205, 773529912, 1294757372, 1396182291,
   1695183700, 1986661051, 2177026350, 2456956037, 2730485921, 2820302411,
   3259730800, 3345764771, 3516065817, 3600352804, 4094571909, 275423344,
   430227734, 506948616, 659060556, 883997877, 958139571, 1322822218,
   1537002063, 1747873779, 1955562222, 2024104815, 2227730452, 2361852424,
   2428436474, 2756734187, 3204031479, 3329325298]

/-- The SHA-256 initial hash value (FIPS 180-4, written in decimal). -/
def sha256H0 : List Nat :=
  [1779033703, 3144134277, 1013904242, 2773480762,
   1359893119, 2600822924, 528734635, 1541459225]

/-- Big-endian 64-bit byte encoding. -/
def be64 (n : Nat) : List Nat :=
  [n / 72057594037927936 % 256, n / 281474976710656 % 256, n / 1099511627776 % 256,
   n / 4294967296 % 256, n / 16777216 % 256, n / 65536 % 256, n / 256 % 256, n % 256]

/-- Big-endian 32-bit byte encoding. -/
def be32 (n : Nat) : List Nat :=
  [n / 16777216 % 256, n / 65536 % 256, n / 256 % 256, n % 256]

/-- SHA-256 padding: append 0x80, zeros to 56 mod 64, and the bit length. -/
def sha256Pad (msg : List Nat) : List Nat :=
  let z := (120 - (msg.length + 1) % 64) % 64
  msg ++ [128] ++ List.replicate z 0 ++ be64 (msg.length * 8)

/-- Group bytes into big-endian 32-bit words. -/
def toWords : List Nat → List Nat
  | b0 :: b1 :: b2 :: b3 :: rest => (((b0 * 256 + b1) * 256 + b2) * 256 + b3) :: toWords rest
  | _ => []

/-- Split a byte list into 64-byte blocks. -/
def chunk64 : List Nat → List (List Nat)
  | [] => []
  | b :: rest => ((b :: rest).take 64) :: chunk64 ((b :: rest).drop 64)
termination_by l => l.length
decreasing_by
  simp only [List.length_drop, List.length_cons]
  omega

/-- One message-schedule extension step over the reversed schedule. -/
def extendStep (wrev : List Nat) : List Nat :=
  wadd (wadd (smallSigma1 (wrev.getD 1 0)) (wrev.getD 6 0))
    (wadd (smallSigma0 (wrev.getD 14 0)) (wrev.getD 15 0)) :: wrev

/-- Iterate the extension step n times. -/
def extendN : Nat → List Nat → List Nat
  | 0, wrev => wrev
  | n + 1, wrev => extendN n (extendStep wrev)

/-- Full 64-word message schedule from a 16-word block. -/
def messageSchedule (block : List Nat) : List Nat :=
  (extendN 48 block.reverse).reverse

/-- The eight SHA-256 working variables. -/
structure SHAState where
  a : Nat
  b : Nat
  c : Nat
  d : Nat
  e : Nat
  f : Nat
  g : Nat
  h : Nat

/-- One SHA-256 compression round. -/
def sha256Round (st : SHAState) (kw : Nat × Nat) : SHAState :=
  let t1 := wadd st.h (wadd (bigSigma1 st.e) (wadd (chF st.e st.f st.g) (wadd kw.1 kw.2)))
  let t2 := wadd (bigSigma0 st.a) (majF st.a st.b st.c)
  ⟨wadd t1 t2, st.a, st.b, st.c, wadd st.d t1, st.e, st.f, st.g⟩

/-- Compress one 16-word block into the running hash. -/
def sha256Compress (hs : List Nat) (block : List Nat) : List Nat :=
  let ws := messageSchedule block
  let st0 : SHAState :=
    ⟨hs.getD 0 0, hs.getD 1 0, hs.getD 2 0, hs.getD 3 0,
     hs.getD 4 0, hs.getD 5 0, hs.getD 6 0, hs.getD 7 0⟩
  let stf := (sha256K.zip ws).foldl sha256Round st0
  [wadd st0.a stf.a, wadd st0.b stf.b, wadd st0.c stf.c, wadd st0.d stf.d,
   wadd st0.e stf.e, wadd st0.f stf.f, wadd st0.g stf.g, wadd st0.h stf.h]

/-- SHA-256 digest of a byte list (`crypto/sha256`). -/
def sha256 (msg : List Nat) : List Nat :=
  let blocks := (chunk64 (sha256Pad msg)).map toWords
  let hFinal := blocks.foldl sha256Compress sha256H0
  hFinal.foldr (fun w acc => be32 w ++ acc) []

/-- Key order on association-list entries (Go map keys are strings). -/
def keyLE {β : Type} (a b : String × β) : Prop := a.1 ≤ b.1

instance {β : Type} : DecidableRel (keyLE (β := β)) :=
  fun a b => inferInstanceAs (Decidable (a.1 ≤ b.1))

instance {β : Type} : IsTotal (String × β) keyLE := ⟨fun a b => le_total a.1 b.1⟩

instance {β : Type} : IsTrans (String × β) keyLE := ⟨fun _ _ _ h1 h2 => le_trans h1 h2⟩

/-- Sort map entries by key. -/
def sortByKey {β : Type} (l : List (String × β)) : List (String × β) :=
  List.insertionSort keyLE l

/-- Modelled from the spec: `render.AsCode` (library `go-render`, not under
`src/`) is "a deterministic structural encoding (field-ordered) of the
input, identical across replicas", invariant to the insertion order of
map-valued fields.  A `map[string]string` is therefore rendered from its
entries in key-sorted order. -/
def renderStringMap (m : List (String × String)) : String :=
  "map[" ++ String.join ((sortByKey m).map (fun kv => kv.1 ++ ":" ++ kv.2 ++ " ")) ++ "]"

/-- Modelled from the spec: rendering of a `map[string][]byte` (Secret
data), again in key-sorted order. -/
def renderByteMap (m : List (String × List Nat)) : String :=
  "map[" ++
    String.join ((sortByKey m).map (fun kv =>
      kv.1 ++ ":" ++ String.join (kv.2.map (fun b => toString b ++ ".")) ++ " ")) ++ "]"

/-- One resource fetched by `fetchReferencedResources` for a
(trigger, cluster) pair, carrying exactly the body that `eventTriggerHash`
renders: ConfigMap `Data`, Secret `Data`, EventSource `Spec`, EventReport
`Spec`.  The non-map specs are carried as their rendered text (opaque for
the hash). -/
inductive FetchedResource
  | configMap (data : List (String × String))
  | secret (data : List (String × List Nat))
  | eventSource (specRender : String)
  | eventReport (specRender : String)

/-- The contribution of one fetched resource to the hashed configuration
string (the `switch` in `eventTriggerHash`). -/
def renderResource : FetchedResource → String
  | FetchedResource.configMap data => renderStringMap data
  | FetchedResource.secret data => renderByteMap data
  | FetchedResource.eventSource specRender => specRender
  | FetchedResource.eventReport specRender => specRender

/-- The parts of an `EventTrigger` object that `eventTriggerHash` reads:
the rendered spec (opaque here) and the object labels (a map). -/
structure EventTriggerHashInputs where
  specRender : String
  labels : List (String × String)

/-- `eventTriggerHash`: concatenate the rendered spec, the rendered labels
and the rendered body of each referenced resource in fetch order, then
digest with SHA-256. -/
def eventTriggerHash (e : EventTriggerHashInputs) (resources : List FetchedResource) :
    List Nat :=
  let config := e.specRender ++ renderStringMap e.labels ++
    String.join (resources.map renderResource)
  sha256 (strBytes config)

/-- Equality of fetched resources up to insertion order of their map-valued
bodies: ConfigMap and Secret data may be listed in any order (keys unique),
EventSource and EventReport specs must render equal. -/
def FetchedResource.equiv : FetchedResource → FetchedResource → Prop
  | FetchedResource.configMap d1, FetchedResource.configMap d2 =>
      d1.Perm d2 ∧ (d1.map Prod.fst).Nodup
  | FetchedResource.secret d1, FetchedResource.secret d2 =>
      d1.Perm d2 ∧ (d1.map Prod.fst).Nodup
  | FetchedResource.eventSource s1, FetchedResource.eventSource s2 => s1 = s2
  | FetchedResource.eventReport s1, FetchedResource.eventReport s2 => s1 = s2
  | _, _ => False

/-- `convertResultStatus`: map a dispatcher result to a feature status
(`Unavailable` maps to nil). -/
def convertResultStatus (result : DeployerResult) : Option SveltosFeatureStatus :=
  match result.resultStatus with
  | ResultStatus.deployed => some SveltosFeatureStatus.provisioned
  | ResultStatus.failed => some SveltosFeatureStatus.failed
  | ResultStatus.inProgress => some SveltosFeatureStatus.provisioning
  | ResultStatus.removed => some SveltosFeatureStatus.removed
  | ResultStatus.unavailable => none

/-- `getClusterHashAndStatus`: hash and status stored in
`Status.ClusterInfo` for a cluster, if an entry exists. -/
def getClusterHashAndStatus (infos : List ClusterInfo) (cluster : ClusterRef) :
    Option (List Nat) × Option SveltosFeatureStatus :=
  match infos.find? (fun ci =>
      isClusterInfoForCluster ci cluster.ns cluster.name (getClusterType cluster)) with
  | some ci => (ci.hash, some ci.status)
  | none => (none, none)

/-- `isClusterEntryRemoved`: true when `Status.ClusterInfo` has no entry
for the cluster. -/
def isClusterEntryRemoved (infos : List ClusterInfo) (cluster : ClusterRef) : Bool :=
  !(infos.any (fun cc =>
      isClusterInfoForCluster cc cluster.ns cluster.name (getClusterType cluster)))

/-- `isClusterStillMatching`: the cluster appears in
`Status.MatchingClusterRefs` (deep equality of the references). -/
def isClusterStillMatching (matchingClusterRefs : List ClusterRef) (cluster : ClusterRef) :
    Bool :=
  matchingClusterRefs.any (fun m => decide (m = cluster))

/-- An externally visible dispatcher call made by the state machine:
`CleanupEntries` or `Deploy` (submit), each for a given cluster and
direction (`cleanup = true` is the undeploy direction). -/
inductive DeployerAction
  | cleanupEntries (cluster : ClusterRef) (cleanup : Bool)
  | submit (cluster : ClusterRef) (cleanup : Bool)
deriving DecidableEq

/-- The cluster an action refers to. -/
def DeployerAction.clusterOf : DeployerAction → ClusterRef
  | DeployerAction.cleanupEntries c _ => c
  | DeployerAction.submit c _ => c

/-- Environment of one per-cluster pass of the state machine: outcomes of
the hash computation, the pause/readiness gate, the dispatcher queries and
the submissions.  Each field models one external call. -/
structure ProcEnv where
  hashResult : Except String (List Nat)
  canProceed : Except String Bool
  cleanupInProgress : Bool
  deployInProgress : Bool
  deployResult : DeployerResult
  cleanupResult : DeployerResult
  deploySubmit : Except String Unit
  undeploySubmit : Except String Unit
  removeEntryResult : Except String Unit

/-- Result of `processEventTrigger` / `removeEventTrigger` for one cluster:
the `*ClusterInfo` (possibly nil), the `error` (possibly nil) and the
dispatcher calls performed. -/
structure ProcOutcome where
  clusterInfo : Option ClusterInfo
  err : Option String
  actions : List DeployerAction
deriving DecidableEq

/-- `removeEventTrigger`: the unmatch path of the per-cluster state
machine. -/
def removeEventTrigger (env : ProcEnv) (statusClusterInfo : List ClusterInfo)
    (cluster : ClusterRef) : ProcOutcome :=
  let acts := [DeployerAction.cleanupEntries cluster false]
  if env.deployInProgress then
    ⟨none, some "deploying eventTrigger still in progress. Wait before cleanup", acts⟩
  else if isClusterEntryRemoved statusClusterInfo cluster then
    ⟨none, none, acts⟩
  else
    let status := convertResultStatus env.cleanupResult
    let ci : ClusterInfo := ⟨cluster, SveltosFeatureStatus.removing, none, none⟩
    let queue : ProcOutcome :=
      match env.undeploySubmit with
      | Except.error e => ⟨none, some e, acts ++ [DeployerAction.submit cluster true]⟩
      | Except.ok _ =>
        ⟨some ci, some "cleanup request is queued", acts ++ [DeployerAction.submit cluster true]⟩
    match status with
    | some s =>
      if s = SveltosFeatureStatus.removing then
        ⟨some ci, some "feature is still being removed", acts⟩
      else if s = SveltosFeatureStatus.removed then
        match env.removeEntryResult with
        | Except.error e => ⟨none, some e, acts⟩
        | Except.ok _ => ⟨some ⟨cluster, SveltosFeatureStatus.removed, none, none⟩, none, acts⟩
      else queue
    | none => queue

/-- `processEventTrigger`: the per-(trigger, cluster) state machine.  For a
cluster still matching the trigger it computes the fingerprint, gates on
pause/readiness, discards queued cleanup entries, consults the dispatcher
result when the stored hash is unchanged, and either accepts the cached
status, reports a transient error, or submits a deploy job. -/
def processEventTrigger (env : ProcEnv) (matchingClusterRefs : List ClusterRef)
    (statusClusterInfo : List ClusterInfo) (cluster : ClusterRef) : ProcOutcome :=
  if ¬ isClusterStillMatching matchingClusterRefs cluster then
    removeEventTrigger env statusClusterInfo cluster
  else
    match env.hashResult with
    | Except.error e => ⟨none, some e, []⟩
    | Except.ok currentHash =>
      match env.canProceed with
      | Except.error e => ⟨none, some e, []⟩
      | Except.ok false => ⟨none, none, []⟩
      | Except.ok true =>
        let acts := [DeployerAction.cleanupEntries cluster true]
        if env.cleanupInProgress then
          ⟨none, some "cleanup of eventTrigger in cluster still in progress. Wait before redeploying",
           acts⟩
        else
          let hs := getClusterHashAndStatus statusClusterInfo cluster
          let isConfigSame : Bool := decide (hs.1 = some currentHash)
          let status0 : Option SveltosFeatureStatus :=
            if isConfigSame then convertResultStatus env.deployResult else none
          match status0 with
          | some s =>
            let errorMessage := env.deployResult.err.getD ""
            let ci1 : ClusterInfo := ⟨cluster, s, some currentHash, some errorMessage⟩
            if s = SveltosFeatureStatus.provisioned then
              ⟨some ci1, none, acts⟩
            else if s = SveltosFeatureStatus.provisioning then
              ⟨some ci1, some "EventTrigger is still being provisioned", acts⟩
            else
              ⟨some ⟨cluster, s, some currentHash, none⟩, none, acts⟩
          | none =>
            if isConfigSame ∧ hs.2 = some SveltosFeatureStatus.provisioned then
              ⟨some ⟨cluster, SveltosFeatureStatus.provisioned, some currentHash, none⟩, none, acts⟩
            else
              match env.deploySubmit with
              | Except.error e => ⟨none, some e, acts ++ [DeployerAction.submit cluster false]⟩
              | Except.ok _ =>
                ⟨some ⟨cluster, SveltosFeatureStatus.provisioning, some currentHash, none⟩, none,
                 acts ++ [DeployerAction.submit cluster false]⟩

/-- `errorSeen = err` when a per-cluster pass failed, otherwise keep the
previous value (the Go loop overwrites on each error). -/
def errJoin (newErr old : Option String) : Option String :=
  match newErr with
  | some e => some e
  | none => old

/-- The in-place update a shard-foreign `ClusterInfo` entry receives in
`deployEventTrigger`: status preserved, nil hash replaced by the sentinel. -/
def foreignTransform (c : ClusterInfo) : ClusterInfo :=
  { c with hash := if c.hash = none then some sentinelHash else c.hash }

/-- State of the `deployEventTrigger` loop after the visited prefix. -/
structure DeployLoopState where
  infos : List ClusterInfo
  errorSeen : Option String
  allProcessed : Bool
  actions : List DeployerAction
  aborted : Option String
deriving DecidableEq

/-- The per-entry loop of `deployEventTrigger`.  `done` is the already
visited (and possibly rewritten) prefix of `Status.ClusterInfo`; the status
list passed to `processEventTrigger` is the current content of the whole
array, i.e. `done ++ pending`.  A shard-lookup error aborts the loop
(`return err` in Go). -/
def deployLoop (envOf : ClusterRef → ProcEnv) (shardOf : ClusterRef → Except String Bool)
    (matchingClusterRefs : List ClusterRef) :
    List ClusterInfo → List ClusterInfo → Option String → Bool → List DeployerAction →
    DeployLoopState
  | done, [], errorSeen, allProcessed, acts => ⟨done, errorSeen, allProcessed, acts, none⟩
  | done, c :: rest, errorSeen, allProcessed, acts =>
    match shardOf c.cluster with
    | Except.error e => ⟨done ++ c :: rest, errorSeen, allProcessed, acts, some e⟩
    | Except.ok false =>
      let ap := allProcessed && decide (c.status = SveltosFeatureStatus.provisioned)
      deployLoop envOf shardOf matchingClusterRefs (done ++ [foreignTransform c]) rest
        errorSeen ap acts
    | Except.ok true =>
      let out := processEventTrigger (envOf c.cluster) matchingClusterRefs (done ++ c :: rest)
        c.cluster
      let errorSeen' := errJoin out.err errorSeen
      match out.clusterInfo with
      | some ci =>
        deployLoop envOf shardOf matchingClusterRefs (done ++ [ci]) rest errorSeen'
          (allProcessed && decide (ci.status = SveltosFeatureStatus.provisioned))
          (acts ++ out.actions)
      | none =>
        deployLoop envOf shardOf matchingClusterRefs (done ++ [c]) rest errorSeen' allProcessed
          (acts ++ out.actions)

/-- Result of a trigger-level `deployEventTrigger` pass: the final
`Status.ClusterInfo`, the returned error (nil = success) and the dispatcher
calls performed. -/
structure DeployOutcome where
  infos : List ClusterInfo
  err : Option String
  actions : List DeployerAction
deriving DecidableEq

/-- `deployEventTrigger`: visit every `Status.ClusterInfo` entry; preserve
shard-foreign entries (substituting the sentinel hash when nil), run the
per-cluster state machine for shard-local ones, remember the last
per-cluster error, and finally succeed only when no error was seen and
every visited or shard-foreign entry reached `Provisioned`. -/
def deployEventTrigger (entries : List ClusterInfo) (matchingClusterRefs : List ClusterRef)
    (envOf : ClusterRef → ProcEnv) (shardOf : ClusterRef → Except String Bool) :
    DeployOutcome :=
  let st := deployLoop envOf shardOf matchingClusterRefs [] entries none true []
  match st.aborted with
  | some e => ⟨st.infos, some e, st.actions⟩
  | none =>
    match st.errorSeen with
    | some e => ⟨st.infos, some e, st.actions⟩
    | none =>
      if st.allProcessed then ⟨st.infos, none, st.actions⟩
      else
        ⟨st.infos, some "request to process EventTrigger is still queued in one ore more clusters",
         st.actions⟩

/-- The identity by which `Status.ClusterInfo` entries are matched against
clusters: namespace, name and cluster type. -/
def clusterKey (c : ClusterRef) : String × String × ClusterType :=
  (c.ns, c.name, getClusterType c)

/-- The cluster key of a `ClusterInfo` entry. -/
def ciKey (ci : ClusterInfo) : String × String × ClusterType :=
  clusterKey ci.cluster

/-- Specification helper: the per-cluster state machine run against the
entry's own stored data only (legitimate whenever entry keys are unique,
see `deployLoop_spec`). -/
def stepOutcome (envOf : ClusterRef → ProcEnv) (matchingClusterRefs : List ClusterRef)
    (c : ClusterInfo) : ProcOutcome :=
  processEventTrigger (envOf c.cluster) matchingClusterRefs [c] c.cluster

/-- Specification helper: the `ClusterInfo` entry after one loop step. -/
def stepInfo (envOf : ClusterRef → ProcEnv) (shardOf : ClusterRef → Except String Bool)
    (matchingClusterRefs : List ClusterRef) (c : ClusterInfo) : ClusterInfo :=
  match shardOf c.cluster with
  | Except.ok false => foreignTransform c
  | _ =>
    match (stepOutcome envOf matchingClusterRefs c).clusterInfo with
    | some ci => ci
    | none => c

/-- Specification helper: the error one loop step reports. -/
def stepErr (envOf : ClusterRef → ProcEnv) (shardOf : ClusterRef → Except String Bool)
    (matchingClusterRefs : List ClusterRef) (c : ClusterInfo) : Option String :=
  match shardOf c.cluster with
  | Except.ok false => none
  | _ => (stepOutcome envOf matchingClusterRefs c).err

/-- Specification helper: whether one loop step leaves `allProcessed`
intact (`true` also for deferred clusters, which produce no entry). -/
def stepProv (envOf : ClusterRef → ProcEnv) (shardOf : ClusterRef → Except String Bool)
    (matchingClusterRefs : List ClusterRef) (c : ClusterInfo) : Bool :=
  match shardOf c.cluster with
  | Except.ok false => decide (c.status = SveltosFeatureStatus.provisioned)
  | _ =>
    match (stepOutcome envOf matchingClusterRefs c).clusterInfo with
    | some ci => decide (ci.status = SveltosFeatureStatus.provisioned)
    | none => true

/-- Specification helper: the dispatcher calls of one loop step. -/
def stepActs (envOf : ClusterRef → ProcEnv) (shardOf : ClusterRef → Except String Bool)
    (matchingClusterRefs : List ClusterRef) (c : ClusterInfo) : List DeployerAction :=
  match shardOf c.cluster with
  | Except.ok false => []
  | _ => (stepOutcome envOf matchingClusterRefs c).actions

/-- A `corev1.ObjectReference` to a matched resource. -/
structure ObjRef where
  apiVersion : String
  kind : String
  ns : String
  name : String
deriving DecidableEq

/-- An `unstructured.Unstructured` resource body collected from the
managed cluster (content opaque). -/
structure Unstructured where
  apiVersion : String
  kind : String
  ns : String
  name : String
  content : String
deriving DecidableEq

/-- The reference built for a collected resource body in
`instantiateOneClusterProfilePerResource`. -/
def refOfResource (r : Unstructured) : ObjRef :=
  ⟨r.apiVersion, r.kind, r.ns, r.name⟩

/-- `EventReport.Spec`: matching resource references plus the collected
multi-document payload. -/
structure EventReportSpec where
  matchingResources : List ObjRef
  resources : String
deriving DecidableEq

/-- An `EventReport` object (`deleted` models a non-zero
`DeletionTimestamp`). -/
structure EventReportObj where
  deleted : Bool
  spec : EventReportSpec
deriving DecidableEq

/-- The element loop of `getResources`: skip empty elements and parse the
rest in order, failing on the first parse error. -/
def getResourcesLoop (parse : String → Except String Unstructured) :
    List String → Except String (List Unstructured)
  | [] => Except.ok []
  | e :: rest =>
    if e = "" then getResourcesLoop parse rest
    else
      match parse e with
      | Except.error msg => Except.error msg
      | Except.ok policy =>
        match getResourcesLoop parse rest with
        | Except.error msg => Except.error msg
        | Except.ok result => Except.ok (policy :: result)

/-- `strings.Split(s, "---")`: split a character list on non-overlapping
occurrences of `---`, scanning left to right. -/
def splitOnDashes : List Char → List (List Char)
  | [] => [[]]
  | '-' :: '-' :: '-' :: rest => [] :: splitOnDashes rest
  | c :: rest =>
    match splitOnDashes rest with
    | [] => [[c]]
    | h :: t => (c :: h) :: t

/-- Document split of the `Resources` payload. -/
def splitResources (s : String) : List String :=
  (splitOnDashes s.toList).map List.asString

/-- `getResources`: split `eventReport.Spec.Resources` on `---` and parse
each non-empty document (`parse` models
`libsveltosutils.GetUnstructured`). -/
def getResources (parse : String → Except String Unstructured) (eventReport : EventReportObj) :
    Except String (List Unstructured) :=
  getResourcesLoop parse (splitResources eventReport.spec.resources)

/-- One template expansion: the object set handed to the template engine
for one generated ClusterProfile. -/
inductive Expansion
  | perResource (matchingResource : ObjRef) (resource : Option Unstructured)
  | perAllResources (matchingResources : List ObjRef) (resources : List Unstructured)
deriving DecidableEq

/-- `instantiateOneClusterProfilePerResource`: one ClusterProfile per
matching resource — over the collected bodies when present, otherwise over
the `matchingResources` references with a nil `Resource`. -/
def instantiateOneClusterProfilePerResource (parse : String → Except String Unstructured)
    (eventReport : EventReportObj) : Except String (List Expansion) :=
  match getResources parse eventReport with
  | Except.error msg => Except.error msg
  | Except.ok resources =>
    if resources.length = 0 then
      Except.ok (eventReport.spec.matchingResources.map
        (fun mr => Expansion.perResource mr none))
    else
      Except.ok (resources.map (fun r => Expansion.perResource (refOfResource r) (some r)))

/-- `instantiateOneClusterProfilePerAllResource`: a single ClusterProfile
instantiated with all matching resources at once. -/
def instantiateOneClusterProfilePerAllResource (parse : String → Except String Unstructured)
    (eventReport : EventReportObj) : Except String (List Expansion) :=
  match getResources parse eventReport with
  | Except.error msg => Except.error msg
  | Except.ok resources =>
    Except.ok [Expansion.perAllResources eventReport.spec.matchingResources resources]

/-- Outcome of `updateClusterProfiles`: either all derived objects for the
(trigger, cluster) are removed (empty expansion set), or the listed
expansions are produced and everything else is swept. -/
inductive UpdateOutcome
  | removeAllDerived
  | expansions (es : List Expansion)
deriving DecidableEq

/-- `updateClusterProfiles`: dispatch on deletion/emptiness and on
`Spec.OneForEvent`. -/
def updateClusterProfiles (parse : String → Except String Unstructured) (oneForEvent : Bool)
    (eventReport : EventReportObj) : Except String UpdateOutcome :=
  if eventReport.deleted ∨ eventReport.spec.matchingResources.length = 0 then
    Except.ok UpdateOutcome.removeAllDerived
  else if oneForEvent then
    match instantiateOneClusterProfilePerResource parse eventReport with
    | Except.error msg => Except.error msg
    | Except.ok es => Except.ok (UpdateOutcome.expansions es)
  else
    match instantiateOneClusterProfilePerAllResource parse eventReport with
    | Except.error msg => Except.error msg
    | Except.ok es => Except.ok (UpdateOutcome.expansions es)

/-- `removeClusterProfiles` sweep: of the existing derived ClusterProfiles
carrying the label set, delete exactly those not in the current expansion
set.  Returns the deleted names. -/
def removeClusterProfilesSweep (existing : List String) (current : List String) : List String :=
  existing.filter (fun name => !(current.contains name))

/-- The identity under which derived ConfigMaps/Secrets are compared with
the needed `policyRefs` set (`getPolicyRef`: namespace, name, kind). -/
structure PolicyRefKey where
  ns : String
  name : String
  kind : String
deriving DecidableEq

/-- `removeConfigMaps` sweep: of the derived ConfigMaps carrying the label
set, delete exactly those whose policy-ref key is not needed.  Returns the
deleted keys. -/
def removeConfigMapsSweep (existing needed : List PolicyRefKey) : List PolicyRefKey :=
  existing.filter (fun cm => !(needed.contains cm))

/-- `removeSecrets` sweep: same shape as `removeConfigMapsSweep` for the
derived Secrets. -/
def removeSecretsSweep (existing needed : List PolicyRefKey) : List PolicyRefKey :=
  existing.filter (fun secret => !(needed.contains secret))

/-- A remote `EventSource` instance: its name and the names of the
`EventTrigger` owners in its owner-reference list. -/
structure EventSourceObj where
  name : String
  ownerRefs : List String
deriving DecidableEq

/-- The `EventTrigger` fields `removeStaleEventSources` reads. -/
structure TriggerObj where
  name : String
  deleted : Bool
  eventSourceName : String
deriving DecidableEq

/-- Externally visible effects of the remote EventSource cleanup. -/
inductive CleanupAction
  | removedOwnerRef (esName : String)
  | updatedES (esName : String)
  | deletedReports (esName : String)
  | deletedES (esName : String)
deriving DecidableEq

/-- Environment for `removeStaleEventSources`: client acquisition, listing,
per-EventSource EventReport deletion (`removeStaleEventReports`), remote
update and remote delete outcomes. -/
structure CleanupEnv where
  getClient : Except String Unit
  listES : Except String Unit
  reportsDeletion : String → Except String Unit
  esUpdate : String → Except String Unit
  esDelete : String → Except String Unit

/-- The per-EventSource loop of `removeStaleEventSources`. -/
def removeStaleEventSourcesLoop (env : CleanupEnv) (resource : TriggerObj) (removeAll : Bool) :
    List EventSourceObj → List CleanupAction → List CleanupAction × Option String
  | [], acts => (acts, none)
  | es :: rest, acts =>
    if ¬ removeAll ∧ ¬ resource.deleted ∧ es.name = resource.eventSourceName then
      removeStaleEventSourcesLoop env resource removeAll rest acts
    else if resource.name ∉ es.ownerRefs then
      removeStaleEventSourcesLoop env resource removeAll rest acts
    else
      let newOwners := es.ownerRefs.filter (fun o => o != resource.name)
      let acts1 := acts ++ [CleanupAction.removedOwnerRef es.name]
      if newOwners ≠ [] then
        match env.esUpdate es.name with
        | Except.error e => (acts1, some e)
        | Except.ok _ =>
          removeStaleEventSourcesLoop env resource removeAll rest
            (acts1 ++ [CleanupAction.updatedES es.name])
      else
        match env.reportsDeletion es.name with
        | Except.error _ => (acts1, none)
        | Except.ok _ =>
          let acts2 := acts1 ++ [CleanupAction.deletedReports es.name]
          match env.esDelete es.name with
          | Except.error e => (acts2, some e)
          | Except.ok _ =>
            removeStaleEventSourcesLoop env resource removeAll rest
              (acts2 ++ [CleanupAction.deletedES es.name])

/-- `removeStaleEventSources`: acquire the managed-cluster client, list the
EventSources (the list content is passed in) and run the per-EventSource
loop.  Returns the performed actions and the returned error. -/
def removeStaleEventSources (env : CleanupEnv) (resource : TriggerObj) (removeAll : Bool)
    (eventSources : List EventSourceObj) : List CleanupAction × Option String :=
  match env.getClient with
  | Except.error e => ([], some e)
  | Except.ok _ =>
    match env.listES with
    | Except.error e => ([], some e)
    | Except.ok _ => removeStaleEventSourcesLoop env resource removeAll eventSources []

/-- A reconcile request naming an EventTrigger. -/
structure ReconcileRequest where
  name : String
deriving DecidableEq

/-- `requeueEventTriggerForCluster`: requests for all triggers previously
tracking the cluster (the cluster map set), followed by requests for all
triggers whose `sourceSelector` matches the cluster's labels.
`selectorMatches` models `labels.Parse(...).Matches` of the external labels
library. -/
def requeueEventTriggerForCluster (clusterMapItems : List String)
    (eventTriggers : List (String × String)) (clusterLabels : List (String × String))
    (selectorMatches : String → List (String × String) → Bool) : List ReconcileRequest :=
  clusterMapItems.map (fun n => ⟨n⟩) ++
    (eventTriggers.filter (fun kv => selectorMatches kv.2 clusterLabels)).map
      (fun kv => ⟨kv.1⟩)

/-- A sample cluster reference used by concrete witnesses. -/
def sampleCluster : ClusterRef := ⟨"Cluster", "ns1", "c1"⟩

/-- A sample stored/computed fingerprint used by concrete witnesses. -/
def sampleHash : List Nat := [1, 2, 3]

/-- A neutral per-cluster environment used by concrete witnesses; individual
fields are overridden per scenario. -/
def sampleEnv : ProcEnv :=
  { hashResult := Except.ok sampleHash, canProceed := Except.ok true,
    cleanupInProgress := false, deployInProgress := false,
    deployResult := ⟨ResultStatus.unavailable, none⟩,
    cleanupResult := ⟨ResultStatus.unavailable, none⟩,
    deploySubmit := Except.ok (), undeploySubmit := Except.ok (),
    removeEntryResult := Except.ok () }

/-- A sample `ClusterInfo` entry with a nil hash, used by concrete
witnesses for the shard-foreign path. -/
def sampleForeignEntry : ClusterInfo :=
  ⟨sampleCluster, SveltosFeatureStatus.provisioning, none, none⟩

/-- C5 — `getInstantiatedObjectName` resolves 0 matches to a fresh
`"sveltos-" + random(20)` name with create, 1 match to that object's name
without create, and 2 or more matches to the error
"more than one resource". -/
theorem getInstantiatedObjectName_spec (objects : List String) (rnd : String)
    (hrnd : rnd.length = 20) :
    (objects = [] →
      getInstantiatedObjectName objects rnd = Except.ok ("sveltos-" ++ rnd, true) ∧
      ("sveltos-" ++ rnd).length = 28) ∧
    (∀ o, objects = [o] → getInstantiatedObjectName objects rnd = Except.ok (o, false)) ∧
    (2 ≤ objects.length →
      getInstantiatedObjectName objects rnd = Except.error "more than one resource") := by
  refine ⟨fun h0 => ?_, fun o h1 => ?_, fun h2 => ?_⟩
  · subst h0
    refine ⟨rfl, ?_⟩
    rw [String.length_append, hrnd]
    decide
  · subst h1
    rfl
  · match objects, h2 with
    | o1 :: o2 :: rest, _ => rfl

/-- Witness for C5 at concrete inputs. -/
theorem getInstantiatedObjectName_spec_witness :
    ("aaaaabbbbbcccccddddd" : String).length = 20 ∧
    ((["x", "y"] : List String) = [] →
      getInstantiatedObjectName ["x", "y"] "aaaaabbbbbcccccddddd" =
        Except.ok ("sveltos-" ++ "aaaaabbbbbcccccddddd", true) ∧
      ("sveltos-" ++ "aaaaabbbbbcccccddddd").length = 28) ∧
    (∀ o, (["x", "y"] : List String) = [o] →
      getInstantiatedObjectName ["x", "y"] "aaaaabbbbbcccccddddd" = Except.ok (o, false)) ∧
    (2 ≤ (["x", "y"] : List String).length →
      getInstantiatedObjectName ["x", "y"] "aaaaabbbbbcccccddddd" =
        Except.error "more than one resource") :=
  ⟨by decide, getInstantiatedObjectName_spec ["x", "y"] "aaaaabbbbbcccccddddd" (by decide)⟩

/-- C4 — evaluation of `removeStaleEventSources` at the failing input: the
sole EventSource is owned only by the trigger being removed, its
owner-reference list becomes empty, and deleting the management-cluster
EventReports fails; the code then returns success (`return nil` on the
error path) and never deletes the EventSource, contradicting the claim
that such a failure is reported as an error. -/
theorem removeStaleEventSources_swallows_report_error :
    removeStaleEventSources
      { getClient := Except.ok (), listES := Except.ok (),
        reportsDeletion := fun _ => Except.error "cannot delete EventReport",
        esUpdate := fun _ => Except.ok (), esDelete := fun _ => Except.ok () }
      ⟨"t", true, "es1"⟩ true [⟨"es1", ["t"]⟩] =
      ([CleanupAction.removedOwnerRef "es1"], none) ∧
    CleanupAction.deletedES "es1" ∉
      (removeStaleEventSources
        { getClient := Except.ok (), listES := Except.ok (),
          reportsDeletion := fun _ => Except.error "cannot delete EventReport",
          esUpdate := fun _ => Except.ok (), esDelete := fun _ => Except.ok () }
        ⟨"t", true, "es1"⟩ true [⟨"es1", ["t"]⟩]).1 := by
  constructor
  · rfl
  · decide

/-- C9 counterexample — a trigger that both previously tracked the cluster
and currently matches the cluster's labels is returned twice by
`requeueEventTriggerForCluster`, so the list is not deduplicated. -/
theorem requeueEventTriggerForCluster_counterexample :
    (requeueEventTriggerForCluster ["t"] [("t", "sel")] [] (fun _ _ => true)).count ⟨"t"⟩ = 2 := by
  decide

/-- C9 amended — with the cluster-map items and the trigger keys each
duplicate-free, a trigger appears once per source that contributes it: once
if it previously tracked the cluster, plus once if its selector matches the
labels; a trigger contributed by both sources hence appears twice. -/
theorem requeueEventTriggerForCluster_dedup (items : List String)
    (triggers : List (String × String)) (clusterLabels : List (String × String))
    (selM : String → List (String × String) → Bool) (t : String)
    (hni : items.Nodup) (hnt : (triggers.map Prod.fst).Nodup) :
    (requeueEventTriggerForCluster items triggers clusterLabels selM).count ⟨t⟩ =
      (if t ∈ items then 1 else 0) +
      (if triggers.any (fun kv => decide (kv.1 = t) && selM kv.2 clusterLabels) then 1 else 0) := by
  unfold requeueEventTriggerForCluster
  rw [List.count_append]
  have hinj : Function.Injective (fun n => (⟨n⟩ : ReconcileRequest)) := by
    intro a b hab
    injection hab
  have h1 : (items.map (fun n => (⟨n⟩ : ReconcileRequest))).count ⟨t⟩ = items.count t :=
    List.count_map_of_injective items _ hinj t
  have h2 :
      ((triggers.filter (fun kv => selM kv.2 clusterLabels)).map
        (fun kv => (⟨kv.1⟩ : ReconcileRequest))).count ⟨t⟩ =
      ((triggers.filter (fun kv => selM kv.2 clusterLabels)).map Prod.fst).count t := by
    have hmm : ((triggers.filter (fun kv => selM kv.2 clusterLabels)).map
        (fun kv => (⟨kv.1⟩ : ReconcileRequest))) =
        ((triggers.filter (fun kv => selM kv.2 clusterLabels)).map Prod.fst).map
          (fun n => (⟨n⟩ : ReconcileRequest)) := by
      rw [List.map_map]
      rfl
    rw [hmm]
    exact List.count_map_of_injective _ _ hinj t
  rw [h1, h2, List.count_eq_of_nodup hni]
  have hsub : ((triggers.filter (fun kv => selM kv.2 clusterLabels)).map Prod.fst).Nodup :=
    List.Nodup.sublist (List.Sublist.map Prod.fst (List.filter_sublist triggers)) hnt
  rw [List.count_eq_of_nodup hsub]
  have hiff : (t ∈ (triggers.filter (fun kv => selM kv.2 clusterLabels)).map Prod.fst) ↔
      (triggers.any (fun kv => decide (kv.1 = t) && selM kv.2 clusterLabels) = true) := by
    simp only [List.mem_map, List.mem_filter, List.any_eq_true, Bool.and_eq_true,
      decide_eq_true_eq]
    constructor
    · rintro ⟨kv, ⟨hmem, hsel⟩, hfst⟩
      exact ⟨kv, hmem, hfst, hsel⟩
    · rintro ⟨kv, hmem, hfst, hsel⟩
      exact ⟨kv, ⟨hmem, hsel⟩, hfst⟩
  simp only [hiff]

/-- Witness for C9 amended at concrete inputs. -/
theorem requeueEventTriggerForCluster_dedup_witness :
    (["a", "t"] : List String).Nodup ∧
    (([("t", "s1"), ("b", "s2")] : List (String × String)).map Prod.fst).Nodup ∧
    (requeueEventTriggerForCluster ["a", "t"] [("t", "s1"), ("b", "s2")] []
      (fun _ _ => true)).count ⟨"t"⟩ =
      (if ("t" : String) ∈ (["a", "t"] : List String) then 1 else 0) +
      (if ([("t", "s1"), ("b", "s2")] : List (String × String)).any
          (fun kv => decide (kv.1 = "t") && (fun (_ : String) (_ : List (String × String)) => true) kv.2 []) then 1 else 0) :=
  ⟨by decide, by decide,
    requeueEventTriggerForCluster_dedup ["a", "t"] [("t", "s1"), ("b", "s2")] []
      (fun _ _ => true) "t" (by decide) (by decide)⟩

/-- C1 counterexample — cluster matching, stored hash unchanged, dispatcher
result `Failed("boom")`: `processEventTrigger` returns a `ClusterInfo` with
status `Failed` but `failureMessage` nil, and a nil error, contrary to the
claim that the error text is surfaced and an error returned. -/
theorem processEventTrigger_failed_counterexample :
    processEventTrigger { sampleEnv with deployResult := ⟨ResultStatus.failed, some "boom"⟩ }
      [sampleCluster] [⟨sampleCluster, SveltosFeatureStatus.provisioning, some sampleHash, none⟩]
      sampleCluster =
      ⟨some ⟨sampleCluster, SveltosFeatureStatus.failed, some sampleHash, none⟩, none,
       [DeployerAction.cleanupEntries sampleCluster true]⟩ := by
  rfl

/-- C1 amended — for a matching cluster with the stored hash equal to the
newly computed fingerprint and dispatcher result `Failed`, the returned
`ClusterInfo` has status `Failed` with the hash updated, but
`failureMessage` is left nil and `processEventTrigger` returns no error
(the inner `ClusterInfo` carrying the error text is discarded by the
fall-through); the failure surfaces only through the trigger-level rollup
because the entry is not `Provisioned`. -/
theorem processEventTrigger_failed_result (env : ProcEnv) (matching : List ClusterRef)
    (infos : List ClusterInfo) (cluster : ClusterRef) (h : List Nat)
    (hm : isClusterStillMatching matching cluster = true)
    (hh : env.hashResult = Except.ok h)
    (hp : env.canProceed = Except.ok true)
    (hc : env.cleanupInProgress = false)
    (hs : (getClusterHashAndStatus infos cluster).1 = some h)
    (hf : env.deployResult.resultStatus = ResultStatus.failed) :
    processEventTrigger env matching infos cluster =
      ⟨some ⟨cluster, SveltosFeatureStatus.failed, some h, none⟩, none,
       [DeployerAction.cleanupEntries cluster true]⟩ := by
  simp [processEventTrigger, hm, hh, hp, hc, hs, hf, convertResultStatus]

/-- Witness for C1 amended at concrete inputs. -/
theorem processEventTrigger_failed_result_witness :
    isClusterStillMatching [sampleCluster] sampleCluster = true ∧
    ({ sampleEnv with deployResult := ⟨ResultStatus.failed, some "boom"⟩ } : ProcEnv).hashResult =
      Except.ok sampleHash ∧
    ({ sampleEnv with deployResult := ⟨ResultStatus.failed, some "boom"⟩ } : ProcEnv).canProceed =
      Except.ok true ∧
    ({ sampleEnv with
        deployResult := ⟨ResultStatus.failed, some "boom"⟩ } : ProcEnv).cleanupInProgress = false ∧
    (getClusterHashAndStatus
      [⟨sampleCluster, SveltosFeatureStatus.provisioned, some sampleHash, none⟩] sampleCluster).1 =
      some sampleHash ∧
    ({ sampleEnv with
        deployResult := ⟨ResultStatus.failed, some "boom"⟩ } : ProcEnv).deployResult.resultStatus =
      ResultStatus.failed ∧
    processEventTrigger { sampleEnv with deployResult := ⟨ResultStatus.failed, some "boom"⟩ }
      [sampleCluster] [⟨sampleCluster, SveltosFeatureStatus.provisioned, some sampleHash, none⟩]
      sampleCluster =
      ⟨some ⟨sampleCluster, SveltosFeatureStatus.failed, some sampleHash, none⟩, none,
       [DeployerAction.cleanupEntries sampleCluster true]⟩ :=
  ⟨by decide, by decide, by decide, by decide, by decide, by decide,
    processEventTrigger_failed_result _ _ _ _ _ (by decide) (by decide) (by decide) (by decide)
      (by decide) (by decide)⟩

/-- C2 counterexample — cluster matching, stored hash unchanged, dispatcher
result `Unavailable`, previously recorded status `Provisioned`: the code
marks the cluster `Provisioned` again ("already deployed") and submits
nothing, contrary to the claim that this case sets `Provisioning` and
submits a deploy job. -/
theorem processEventTrigger_submit_counterexample :
    processEventTrigger sampleEnv [sampleCluster]
      [⟨sampleCluster, SveltosFeatureStatus.provisioned, some sampleHash, none⟩] sampleCluster =
      ⟨some ⟨sampleCluster, SveltosFeatureStatus.provisioned, some sampleHash, none⟩, none,
       [DeployerAction.cleanupEntries sampleCluster true]⟩ ∧
    DeployerAction.submit sampleCluster false ∉
      (processEventTrigger sampleEnv [sampleCluster]
        [⟨sampleCluster, SveltosFeatureStatus.provisioned, some sampleHash, none⟩]
        sampleCluster).actions := by
  constructor
  · rfl
  · decide

/-- C2 amended — for a matching, proceedable cluster with no cleanup in
progress, the status is set to `Provisioning` and a deploy job is
submitted whenever the stored hash differs from the new fingerprint, or
the dispatcher result is `Unavailable` and the previously recorded status
is not `Provisioned`; when the hash is unchanged, the result `Unavailable`
and the prior status `Provisioned`, the code instead keeps `Provisioned`
and submits nothing. -/
theorem processEventTrigger_submits (env : ProcEnv) (matching : List ClusterRef)
    (infos : List ClusterInfo) (cluster : ClusterRef) (h : List Nat)
    (hm : isClusterStillMatching matching cluster = true)
    (hh : env.hashResult = Except.ok h)
    (hp : env.canProceed = Except.ok true)
    (hc : env.cleanupInProgress = false)
    (hd : env.deploySubmit = Except.ok ())
    (hcase : (getClusterHashAndStatus infos cluster).1 ≠ some h ∨
      (env.deployResult.resultStatus = ResultStatus.unavailable ∧
        (getClusterHashAndStatus infos cluster).2 ≠ some SveltosFeatureStatus.provisioned)) :
    processEventTrigger env matching infos cluster =
      ⟨some ⟨cluster, SveltosFeatureStatus.provisioning, some h, none⟩, none,
       [DeployerAction.cleanupEntries cluster true, DeployerAction.submit cluster false]⟩ := by
  rcases hcase with hne | ⟨hu, hst⟩
  · simp [processEventTrigger, hm, hh, hp, hc, hd, hne]
  · simp [processEventTrigger, hm, hh, hp, hc, hd, hu, hst, convertResultStatus]

/-- Witness for C2 amended at concrete inputs (changed hash). -/
theorem processEventTrigger_submits_witness :
    isClusterStillMatching [sampleCluster] sampleCluster = true ∧
    ({ sampleEnv with hashResult := Except.ok [9] } : ProcEnv).hashResult = Except.ok [9] ∧
    ({ sampleEnv with hashResult := Except.ok [9] } : ProcEnv).canProceed = Except.ok true ∧
    ({ sampleEnv with hashResult := Except.ok [9] } : ProcEnv).cleanupInProgress = false ∧
    ({ sampleEnv with hashResult := Except.ok [9] } : ProcEnv).deploySubmit = Except.ok () ∧
    ((getClusterHashAndStatus
        [⟨sampleCluster, SveltosFeatureStatus.provisioned, some sampleHash, none⟩]
        sampleCluster).1 ≠ some [9] ∨
      (({ sampleEnv with hashResult := Except.ok [9] } : ProcEnv).deployResult.resultStatus =
          ResultStatus.unavailable ∧
        (getClusterHashAndStatus
          [⟨sampleCluster, SveltosFeatureStatus.provisioned, some sampleHash, none⟩]
          sampleCluster).2 ≠ some SveltosFeatureStatus.provisioned)) ∧
    processEventTrigger { sampleEnv with hashResult := Except.ok [9] } [sampleCluster]
      [⟨sampleCluster, SveltosFeatureStatus.provisioned, some sampleHash, none⟩] sampleCluster =
      ⟨some ⟨sampleCluster, SveltosFeatureStatus.provisioning, some [9], none⟩, none,
       [DeployerAction.cleanupEntries sampleCluster true,
        DeployerAction.submit sampleCluster false]⟩ :=
  ⟨by decide, by decide, by decide, by decide, by decide, Or.inl (by decide),
    processEventTrigger_submits _ _ _ _ _ (by decide) (by decide) (by decide) (by decide)
      (by decide) (Or.inl (by decide))⟩

/-- Matching a `ClusterInfo` entry against a cluster identity is exactly
equality of cluster keys. -/
theorem isClusterInfoForCluster_iff (d : ClusterInfo) (cl : ClusterRef) :
    isClusterInfoForCluster d cl.ns cl.name (getClusterType cl) = true ↔
      ciKey d = clusterKey cl := by
  simp only [isClusterInfoForCluster, ciKey, clusterKey, Prod.ext_iff, Bool.and_eq_true,
    decide_eq_true_eq]
  tauto

/-- `find?` skips a prefix on which the predicate is false. -/
theorem find?_append_of_false {p : ClusterInfo → Bool} (pre l : List ClusterInfo)
    (h : ∀ d ∈ pre, p d = false) : (pre ++ l).find? p = l.find? p := by
  induction pre with
  | nil => rfl
  | cons a t ih =>
    have ha : p a = false := h a (List.mem_cons_self a t)
    rw [List.cons_append, List.find?_cons, ha]
    exact ih (fun d hd => h d (List.mem_cons_of_mem a hd))

/-- A `ClusterInfo` entry matches its own cluster. -/
theorem isClusterInfoForCluster_self (c : ClusterInfo) :
    isClusterInfoForCluster c c.cluster.ns c.cluster.name (getClusterType c.cluster) = true := by
  simp [isClusterInfoForCluster]

/-- Looking a cluster up in a list that holds its own entry behind a
key-disjoint prefix yields exactly that entry's hash and status. -/
theorem getClusterHashAndStatus_middle (pre rest : List ClusterInfo) (c : ClusterInfo)
    (h : ∀ d ∈ pre, ciKey d ≠ ciKey c) :
    getClusterHashAndStatus (pre ++ c :: rest) c.cluster = (c.hash, some c.status) := by
  unfold getClusterHashAndStatus
  rw [find?_append_of_false pre (c :: rest) ?hpre]
  · rw [List.find?_cons, isClusterInfoForCluster_self c]
  case hpre =>
    intro d hd
    rw [Bool.eq_false_iff]
    intro habs
    exact h d hd ((isClusterInfoForCluster_iff d c.cluster).mp habs)

/-- A list containing an entry for the cluster reports the entry as not
removed. -/
theorem isClusterEntryRemoved_middle (pre rest : List ClusterInfo) (c : ClusterInfo) :
    isClusterEntryRemoved (pre ++ c :: rest) c.cluster = false := by
  unfold isClusterEntryRemoved
  simp only [List.any_append, List.any_cons, isClusterInfoForCluster_self c]
  simp

/-- `removeEventTrigger` reads its status list only through
`isClusterEntryRemoved`. -/
theorem removeEventTrigger_congr (env : ProcEnv) (l1 l2 : List ClusterInfo) (cl : ClusterRef)
    (h2 : isClusterEntryRemoved l1 cl = isClusterEntryRemoved l2 cl) :
    removeEventTrigger env l1 cl = removeEventTrigger env l2 cl := by
  unfold removeEventTrigger
  rw [h2]

/-- `processEventTrigger` reads its status list only through
`getClusterHashAndStatus` and `isClusterEntryRemoved`. -/
theorem processEventTrigger_congr (env : ProcEnv) (m : List ClusterRef)
    (l1 l2 : List ClusterInfo) (cl : ClusterRef)
    (h1 : getClusterHashAndStatus l1 cl = getClusterHashAndStatus l2 cl)
    (h2 : isClusterEntryRemoved l1 cl = isClusterEntryRemoved l2 cl) :
    processEventTrigger env m l1 cl = processEventTrigger env m l2 cl := by
  unfold processEventTrigger
  rw [removeEventTrigger_congr env l1 l2 cl h2, h1]

/-- Every `ClusterInfo` built by the per-cluster state machine is for the
processed cluster. -/
theorem processEventTrigger_ci_cluster (env : ProcEnv) (m : List ClusterRef)
    (l : List ClusterInfo) (cl : ClusterRef) :
    ∀ ci, (processEventTrigger env m l cl).clusterInfo = some ci → ci.cluster = cl := by
  intro ci hci
  unfold processEventTrigger removeEventTrigger at hci
  simp only [] at hci
  repeat' split at hci
  all_goals simp_all
  all_goals subst hci
  all_goals rfl

/-- Every dispatcher call of the per-cluster state machine is for the
processed cluster. -/
theorem processEventTrigger_actions_cluster (env : ProcEnv) (m : List ClusterRef)
    (l : List ClusterInfo) (cl : ClusterRef) :
    ∀ a ∈ (processEventTrigger env m l cl).actions, DeployerAction.clusterOf a = cl := by
  intro a ha
  unfold processEventTrigger removeEventTrigger at ha
  simp only [] at ha
  repeat' split at ha
  all_goals simp_all [DeployerAction.clusterOf]
  all_goals rcases ha with rfl | rfl <;> rfl

/-- `foreignTransform` does not change the entry's cluster key. -/
theorem ciKey_foreignTransform (c : ClusterInfo) : ciKey (foreignTransform c) = ciKey c := rfl

/-- One shard-local loop step computes exactly `stepOutcome` of the entry:
the visited prefix is key-disjoint from the entry, so the lookups in the
full status list see only the entry itself. -/
theorem processEventTrigger_step (envOf : ClusterRef → ProcEnv) (m : List ClusterRef)
    (done rest : List ClusterInfo) (c : ClusterInfo)
    (hdone : ∀ d ∈ done, ciKey d ≠ ciKey c) :
    processEventTrigger (envOf c.cluster) m (done ++ c :: rest) c.cluster =
      stepOutcome envOf m c := by
  unfold stepOutcome
  apply processEventTrigger_congr
  · rw [getClusterHashAndStatus_middle done rest c hdone]
    have h2 := getClusterHashAndStatus_middle [] [] c (by simp)
    simpa using h2.symm
  · rw [isClusterEntryRemoved_middle done rest c]
    have h2 := isClusterEntryRemoved_middle [] [] c
    simpa using h2.symm

/-- Full characterisation of the `deployEventTrigger` loop when every
shard lookup answers and the entry keys are unique: the final status list,
error, `allProcessed` flag and dispatcher calls are the pointwise step
results. -/
theorem deployLoop_eq (envOf : ClusterRef → ProcEnv) (shardOf : ClusterRef → Except String Bool)
    (m : List ClusterRef) :
    ∀ (pending done : List ClusterInfo) (errSeen : Option String) (ap : Bool)
      (acts : List DeployerAction),
      ((done ++ pending).map ciKey).Nodup →
      (∀ c ∈ pending, ∃ b, shardOf c.cluster = Except.ok b) →
      deployLoop envOf shardOf m done pending errSeen ap acts =
        ⟨done ++ pending.map (stepInfo envOf shardOf m),
         pending.foldl (fun acc c => errJoin (stepErr envOf shardOf m c) acc) errSeen,
         ap && pending.all (stepProv envOf shardOf m),
         acts ++ (pending.map (stepActs envOf shardOf m)).join,
         none⟩ := by
  intro pending
  induction pending with
  | nil =>
    intro done errSeen ap acts hnd hok
    simp [deployLoop]
  | cons c rest ih =>
    intro done errSeen ap acts hnd hok
    obtain ⟨b, hb⟩ := hok c (List.mem_cons_self c rest)
    have hokrest : ∀ c' ∈ rest, ∃ b, shardOf c'.cluster = Except.ok b :=
      fun c' h => hok c' (List.mem_cons_of_mem c h)
    have hdone : ∀ d ∈ done, ciKey d ≠ ciKey c := by
      intro d hd heq
      rw [List.map_append, List.nodup_append] at hnd
      refine hnd.2.2 (List.mem_map_of_mem ciKey hd) ?_
      rw [heq]
      exact List.mem_map_of_mem ciKey (List.mem_cons_self c rest)
    rw [deployLoop, hb]
    cases b with
    | false =>
      dsimp only
      have hkeys : (((done ++ [foreignTransform c]) ++ rest).map ciKey) =
          ((done ++ c :: rest).map ciKey) := by
        simp [ciKey_foreignTransform]
      rw [ih (done ++ [foreignTransform c]) errSeen _ acts (by rw [hkeys]; exact hnd) hokrest]
      simp [stepInfo, stepErr, stepProv, stepActs, hb, errJoin, Bool.and_assoc]
    | true =>
      dsimp only
      rw [processEventTrigger_step envOf m done rest c hdone]
      cases hci : (stepOutcome envOf m c).clusterInfo with
      | some ci =>
        have hcic : ci.cluster = c.cluster :=
          processEventTrigger_ci_cluster (envOf c.cluster) m [c] c.cluster ci
            (by rw [← stepOutcome]; exact hci)
        have hkey : ciKey ci = ciKey c := by
          unfold ciKey
          rw [hcic]
        have hkeys : (((done ++ [ci]) ++ rest).map ciKey) =
            ((done ++ c :: rest).map ciKey) := by
          simp [hkey]
        dsimp only
        rw [ih (done ++ [ci]) _ _ _ (by rw [hkeys]; exact hnd) hokrest]
        simp [stepInfo, stepErr, stepProv, stepActs, hb, hci, Bool.and_assoc]
      | none =>
        dsimp only
        rw [ih (done ++ [c]) _ _ _ (by simpa using hnd) hokrest]
        simp [stepInfo, stepErr, stepProv, stepActs, hb, hci, Bool.and_assoc]

/-- `errJoin` is nil only when both arguments are. -/
theorem errJoin_eq_none (a b : Option String) : errJoin a b = none ↔ a = none ∧ b = none := by
  cases a <;> simp [errJoin]

/-- The folded `errorSeen` is nil exactly when it started nil and every
step reported no error. -/
theorem foldl_errJoin_eq_none (f : ClusterInfo → Option String) :
    ∀ (l : List ClusterInfo) (init : Option String),
      (l.foldl (fun acc c => errJoin (f c) acc) init = none ↔
        init = none ∧ ∀ c ∈ l, f c = none) := by
  intro l
  induction l with
  | nil => simp
  | cons c rest ih =>
    intro init
    rw [List.foldl_cons, ih]
    rw [errJoin_eq_none]
    constructor
    · rintro ⟨⟨hf, hi⟩, hrest⟩
      exact ⟨hi, fun d hd => by
        rcases List.mem_cons.mp hd with rfl | hd'
        · exact hf
        · exact hrest d hd'⟩
    · rintro ⟨hi, hall⟩
      exact ⟨⟨hall c (List.mem_cons_self c rest), hi⟩,
        fun d hd => hall d (List.mem_cons_of_mem c hd)⟩

/-- The trigger-level pass succeeds exactly when every per-entry step
reported no error and left `allProcessed` intact. -/
theorem deployEventTrigger_err_none_iff (entries : List ClusterInfo) (m : List ClusterRef)
    (envOf : ClusterRef → ProcEnv) (shardOf : ClusterRef → Except String Bool)
    (hnd : (entries.map ciKey).Nodup)
    (hok : ∀ c ∈ entries, ∃ b, shardOf c.cluster = Except.ok b) :
    (deployEventTrigger entries m envOf shardOf).err = none ↔
      ∀ c ∈ entries,
        stepErr envOf shardOf m c = none ∧ stepProv envOf shardOf m c = true := by
  unfold deployEventTrigger
  rw [deployLoop_eq envOf shardOf m entries [] none true [] (by simpa using hnd) hok]
  dsimp only
  cases hf : entries.foldl (fun acc c => errJoin (stepErr envOf shardOf m c) acc) none with
  | some e =>
    dsimp only
    constructor
    · intro h
      exact absurd h (by simp)
    · intro hall
      exfalso
      have : entries.foldl (fun acc c => errJoin (stepErr envOf shardOf m c) acc) none = none :=
        (foldl_errJoin_eq_none _ entries none).mpr ⟨rfl, fun c hc => (hall c hc).1⟩
      rw [hf] at this
      exact Option.noConfusion this
  | none =>
    have herr : ∀ c ∈ entries, stepErr envOf shardOf m c = none :=
      ((foldl_errJoin_eq_none _ entries none).mp hf).2
    dsimp only
    rw [Bool.true_and]
    cases hall : entries.all (stepProv envOf shardOf m) with
    | true =>
      simp only [if_true]
      constructor
      · intro _ c hc
        exact ⟨herr c hc, List.all_eq_true.mp hall c hc⟩
      · intro _
        trivial
    | false =>
      simp only [Bool.false_eq_true, if_false]
      constructor
      · intro h
        exact absurd h (by simp)
      · intro hall2
        exfalso
        have : entries.all (stepProv envOf shardOf m) = true :=
          List.all_eq_true.mpr (fun c hc => (hall2 c hc).2)
        rw [hall] at this
        exact Bool.noConfusion this

/-- C3 counterexample — one entry with prior status `Provisioning` whose
cluster is paused (`canProceed` false): the per-cluster pass returns no
`ClusterInfo`, the rollup skips the entry, and `deployEventTrigger`
returns success even though the entry's status is not `Provisioned`. -/
theorem deployEventTrigger_rollup_counterexample :
    (deployEventTrigger [⟨sampleCluster, SveltosFeatureStatus.provisioning, some sampleHash, none⟩]
      [sampleCluster] (fun _ => { sampleEnv with canProceed := Except.ok false })
      (fun _ => Except.ok true)).err = none ∧
    (deployEventTrigger [⟨sampleCluster, SveltosFeatureStatus.provisioning, some sampleHash, none⟩]
      [sampleCluster] (fun _ => { sampleEnv with canProceed := Except.ok false })
      (fun _ => Except.ok true)).infos =
      [⟨sampleCluster, SveltosFeatureStatus.provisioning, some sampleHash, none⟩] := by
  constructor
  · rfl
  · rfl

/-- C3 amended — with unique entry keys and the shard lookups answering,
`deployEventTrigger` returns success iff every per-entry step reported no
error and either produced a `ClusterInfo` with status `Provisioned`, is
shard-foreign with stored status `Provisioned`, or produced no
`ClusterInfo` at all (deferred paused / not-ready clusters, which the
rollup ignores, so a deferred cluster with a non-`Provisioned` prior
status does not by itself cause an error). -/
theorem deployEventTrigger_rollup (entries : List ClusterInfo) (m : List ClusterRef)
    (envOf : ClusterRef → ProcEnv) (shardOf : ClusterRef → Except String Bool)
    (hnd : (entries.map ciKey).Nodup)
    (hok : ∀ c ∈ entries, ∃ b, shardOf c.cluster = Except.ok b) :
    (deployEventTrigger entries m envOf shardOf).err = none ↔
      ∀ c ∈ entries,
        stepErr envOf shardOf m c = none ∧ stepProv envOf shardOf m c = true :=
  deployEventTrigger_err_none_iff entries m envOf shardOf hnd hok

/-- Witness for C3 amended at concrete inputs. -/
theorem deployEventTrigger_rollup_witness :
    ((([⟨sampleCluster, SveltosFeatureStatus.provisioned, some sampleHash, none⟩] :
        List ClusterInfo).map ciKey).Nodup) ∧
    (∀ c ∈ ([⟨sampleCluster, SveltosFeatureStatus.provisioned, some sampleHash, none⟩] :
        List ClusterInfo), ∃ b, (fun (_ : ClusterRef) => Except.ok (ε := String) true) c.cluster =
          Except.ok b) ∧
    ((deployEventTrigger [⟨sampleCluster, SveltosFeatureStatus.provisioned, some sampleHash, none⟩]
        [sampleCluster] (fun _ => sampleEnv) (fun _ => Except.ok true)).err = none ↔
      ∀ c ∈ ([⟨sampleCluster, SveltosFeatureStatus.provisioned, some sampleHash, none⟩] :
          List ClusterInfo),
        stepErr (fun _ => sampleEnv) (fun _ => Except.ok true) [sampleCluster] c = none ∧
        stepProv (fun _ => sampleEnv) (fun _ => Except.ok true) [sampleCluster] c = true) :=
  ⟨by decide, fun c _ => ⟨true, rfl⟩,
    deployEventTrigger_rollup
      [⟨sampleCluster, SveltosFeatureStatus.provisioned, some sampleHash, none⟩]
      [sampleCluster] (fun _ => sampleEnv) (fun _ => Except.ok true)
      (by decide) (fun c _ => ⟨true, rfl⟩)⟩

/-- The final status list and dispatcher calls of a trigger-level pass are
those accumulated by the loop, whatever the returned error. -/
theorem deployEventTrigger_infos_actions (entries : List ClusterInfo) (m : List ClusterRef)
    (envOf : ClusterRef → ProcEnv) (shardOf : ClusterRef → Except String Bool) :
    (deployEventTrigger entries m envOf shardOf).infos =
      (deployLoop envOf shardOf m [] entries none true []).infos ∧
    (deployEventTrigger entries m envOf shardOf).actions =
      (deployLoop envOf shardOf m [] entries none true []).actions := by
  unfold deployEventTrigger
  constructor <;> (dsimp only; repeat' split) <;> rfl

/-- C7 — a shard-foreign entry is preserved verbatim except that a nil
hash is replaced by the sentinel (the base64 rendering of "empty"); no
dispatcher call concerns its cluster, and the pass can only succeed if the
preserved status is already `Provisioned`. -/
theorem deployEventTrigger_shard_foreign (entries : List ClusterInfo) (m : List ClusterRef)
    (envOf : ClusterRef → ProcEnv) (shardOf : ClusterRef → Except String Bool)
    (hnd : (entries.map ciKey).Nodup)
    (hok : ∀ c ∈ entries, ∃ b, shardOf c.cluster = Except.ok b)
    (i : Nat) (hi : i < entries.length)
    (hfor : shardOf (entries.get ⟨i, hi⟩).cluster = Except.ok false) :
    (deployEventTrigger entries m envOf shardOf).infos[i]? =
      some (foreignTransform (entries.get ⟨i, hi⟩)) ∧
    (foreignTransform (entries.get ⟨i, hi⟩)).cluster = (entries.get ⟨i, hi⟩).cluster ∧
    (foreignTransform (entries.get ⟨i, hi⟩)).status = (entries.get ⟨i, hi⟩).status ∧
    (foreignTransform (entries.get ⟨i, hi⟩)).failureMessage =
      (entries.get ⟨i, hi⟩).failureMessage ∧
    (foreignTransform (entries.get ⟨i, hi⟩)).hash =
      (if (entries.get ⟨i, hi⟩).hash = none then some sentinelHash
       else (entries.get ⟨i, hi⟩).hash) ∧
    sentinelHash = strBytes "ZW1wdHk=" ∧
    (∀ a ∈ (deployEventTrigger entries m envOf shardOf).actions,
      DeployerAction.clusterOf a ≠ (entries.get ⟨i, hi⟩).cluster) ∧
    ((deployEventTrigger entries m envOf shardOf).err = none →
      (entries.get ⟨i, hi⟩).status = SveltosFeatureStatus.provisioned) := by
  have hchar := deployLoop_eq envOf shardOf m entries [] none true [] (by simpa using hnd) hok
  have hinfos : (deployEventTrigger entries m envOf shardOf).infos =
      entries.map (stepInfo envOf shardOf m) := by
    rw [(deployEventTrigger_infos_actions entries m envOf shardOf).1, hchar]
    simp
  have hacts : (deployEventTrigger entries m envOf shardOf).actions =
      (entries.map (stepActs envOf shardOf m)).join := by
    rw [(deployEventTrigger_infos_actions entries m envOf shardOf).2, hchar]
    simp
  refine ⟨?_, rfl, rfl, rfl, rfl, by decide, ?_, ?_⟩
  · rw [hinfos, List.getElem?_map, List.getElem?_eq_getElem hi]
    have hfor2 : shardOf entries[i].cluster = Except.ok false := hfor
    simp [stepInfo, hfor2]
  · intro a ha heqcl
    rw [hacts] at ha
    obtain ⟨la, hla, hala⟩ := List.mem_join.mp ha
    obtain ⟨c', hc', rfl⟩ := List.mem_map.mp hla
    have hclOf : DeployerAction.clusterOf a = c'.cluster := by
      cases hS : shardOf c'.cluster with
      | error e =>
        have hstep : stepActs envOf shardOf m c' = (stepOutcome envOf m c').actions := by
          unfold stepActs
          rw [hS]
        rw [hstep] at hala
        exact processEventTrigger_actions_cluster (envOf c'.cluster) m [c'] c'.cluster a hala
      | ok bb =>
        cases bb with
        | false =>
          have hstep : stepActs envOf shardOf m c' = [] := by
            unfold stepActs
            rw [hS]
          rw [hstep] at hala
          exact absurd hala (List.not_mem_nil a)
        | true =>
          have hstep : stepActs envOf shardOf m c' = (stepOutcome envOf m c').actions := by
            unfold stepActs
            rw [hS]
          rw [hstep] at hala
          exact processEventTrigger_actions_cluster (envOf c'.cluster) m [c'] c'.cluster a hala
    have hkeq : ciKey c' = ciKey (entries.get ⟨i, hi⟩) := by
      unfold ciKey
      rw [hclOf] at heqcl
      rw [heqcl]
    have hceq : c' = entries.get ⟨i, hi⟩ :=
      List.inj_on_of_nodup_map hnd hc' (entries.get_mem i hi) hkeq
    rw [hceq] at hala
    have hstep : stepActs envOf shardOf m (entries.get ⟨i, hi⟩) = [] := by
      unfold stepActs
      rw [hfor]
    rw [hstep] at hala
    exact absurd hala (List.not_mem_nil a)
  · intro herr
    have hprov :=
      ((deployEventTrigger_err_none_iff entries m envOf shardOf hnd hok).mp herr
        (entries.get ⟨i, hi⟩) (entries.get_mem i hi)).2
    unfold stepProv at hprov
    rw [hfor] at hprov
    exact of_decide_eq_true hprov

/-- Witness for C7 at concrete inputs (one shard-foreign entry, nil hash). -/
theorem deployEventTrigger_shard_foreign_witness :
    (([sampleForeignEntry] : List ClusterInfo).map ciKey).Nodup ∧
    (∀ c ∈ ([sampleForeignEntry] : List ClusterInfo),
      ∃ b, (fun (_ : ClusterRef) => Except.ok (ε := String) false) c.cluster = Except.ok b) ∧
    0 < ([sampleForeignEntry] : List ClusterInfo).length ∧
    (fun (_ : ClusterRef) => Except.ok (ε := String) false) sampleForeignEntry.cluster =
      Except.ok false ∧
    ((deployEventTrigger [sampleForeignEntry] [sampleCluster] (fun _ => sampleEnv)
        (fun _ => Except.ok false)).infos[0]? = some (foreignTransform sampleForeignEntry) ∧
      (foreignTransform sampleForeignEntry).cluster = sampleForeignEntry.cluster ∧
      (foreignTransform sampleForeignEntry).status = sampleForeignEntry.status ∧
      (foreignTransform sampleForeignEntry).failureMessage = sampleForeignEntry.failureMessage ∧
      (foreignTransform sampleForeignEntry).hash =
        (if sampleForeignEntry.hash = none then some sentinelHash
         else sampleForeignEntry.hash) ∧
      sentinelHash = strBytes "ZW1wdHk=" ∧
      (∀ a ∈ (deployEventTrigger [sampleForeignEntry] [sampleCluster] (fun _ => sampleEnv)
          (fun _ => Except.ok false)).actions,
        DeployerAction.clusterOf a ≠ sampleForeignEntry.cluster) ∧
      ((deployEventTrigger [sampleForeignEntry] [sampleCluster] (fun _ => sampleEnv)
          (fun _ => Except.ok false)).err = none →
        sampleForeignEntry.status = SveltosFeatureStatus.provisioned)) :=
  ⟨by decide, fun c _ => ⟨false, rfl⟩, by decide, rfl,
    deployEventTrigger_shard_foreign [sampleForeignEntry] [sampleCluster] (fun _ => sampleEnv)
      (fun _ => Except.ok false) (by decide) (fun c _ => ⟨false, rfl⟩) 0 (by decide) rfl⟩

/-- C6 — `updateClusterProfiles`: a deleted EventReport or an empty
`matchingResources` list yields the empty expansion set and the sweeps
with no current objects delete every derived ClusterProfile, ConfigMap and
Secret for the (trigger, cluster); with `oneForEvent` one expansion is
produced per collected resource body when bodies are present, otherwise
one per `matchingResources` reference with a nil `Resource`; without
`oneForEvent` exactly one expansion is produced over all resources. -/
theorem updateClusterProfiles_spec (parse : String → Except String Unstructured)
    (er : EventReportObj) (existingP : List String) (existingCM existingS : List PolicyRefKey)
    (rs : List Unstructured) :
    ((er.deleted = true ∨ er.spec.matchingResources.length = 0) →
      (∀ oneForEvent, updateClusterProfiles parse oneForEvent er =
        Except.ok UpdateOutcome.removeAllDerived) ∧
      removeClusterProfilesSweep existingP [] = existingP ∧
      removeConfigMapsSweep existingCM [] = existingCM ∧
      removeSecretsSweep existingS [] = existingS) ∧
    (er.deleted = false → er.spec.matchingResources.length ≠ 0 →
      getResources parse er = Except.ok rs →
      (rs.length = 0 →
        updateClusterProfiles parse true er = Except.ok (UpdateOutcome.expansions
          (er.spec.matchingResources.map (fun mr => Expansion.perResource mr none)))) ∧
      (rs.length ≠ 0 →
        updateClusterProfiles parse true er = Except.ok (UpdateOutcome.expansions
          (rs.map (fun r => Expansion.perResource (refOfResource r) (some r))))) ∧
      updateClusterProfiles parse false er = Except.ok (UpdateOutcome.expansions
        [Expansion.perAllResources er.spec.matchingResources rs])) := by
  constructor
  · intro hcase
    refine ⟨fun oneForEvent => ?_, ?_, ?_, ?_⟩
    · rcases hcase with hdel | hlen
      · simp [updateClusterProfiles, hdel]
      · simp [updateClusterProfiles, hlen]
    · simp [removeClusterProfilesSweep]
    · simp [removeConfigMapsSweep]
    · simp [removeSecretsSweep]
  · intro hdel hlen hr
    refine ⟨fun hres => ?_, fun hres => ?_, ?_⟩
    · simp [updateClusterProfiles, hdel, hlen, instantiateOneClusterProfilePerResource, hr, hres]
    · simp [updateClusterProfiles, hdel, hlen, instantiateOneClusterProfilePerResource, hr, hres]
    · simp [updateClusterProfiles, hdel, hlen, instantiateOneClusterProfilePerAllResource, hr]

/-- Witness for C6 at concrete inputs (no collected bodies, one matching
resource reference). -/
theorem updateClusterProfiles_spec_witness :
    ((⟨false, ⟨[⟨"v1", "Service", "app", "api"⟩], ""⟩⟩ : EventReportObj).deleted = false) ∧
    ((⟨false, ⟨[⟨"v1", "Service", "app", "api"⟩], ""⟩⟩ : EventReportObj).spec.matchingResources.length ≠ 0) ∧
    (getResources (fun _ => Except.error "unused")
      (⟨false, ⟨[⟨"v1", "Service", "app", "api"⟩], ""⟩⟩ : EventReportObj) =
        Except.ok ([] : List Unstructured)) ∧
    (([] : List Unstructured).length = 0 →
      updateClusterProfiles (fun _ => Except.error "unused") true
        (⟨false, ⟨[⟨"v1", "Service", "app", "api"⟩], ""⟩⟩ : EventReportObj) =
        Except.ok (UpdateOutcome.expansions
          ((⟨false, ⟨[⟨"v1", "Service", "app", "api"⟩], ""⟩⟩ :
            EventReportObj).spec.matchingResources.map
              (fun mr => Expansion.perResource mr none)))) ∧
    updateClusterProfiles (fun _ => Except.error "unused") false
      (⟨false, ⟨[⟨"v1", "Service", "app", "api"⟩], ""⟩⟩ : EventReportObj) =
      Except.ok (UpdateOutcome.expansions
        [Expansion.perAllResources
          (⟨false, ⟨[⟨"v1", "Service", "app", "api"⟩], ""⟩⟩ :
            EventReportObj).spec.matchingResources ([] : List Unstructured)]) := by
  refine ⟨rfl, by decide, rfl, ?_, ?_⟩
  · intro hres
    exact (((updateClusterProfiles_spec (fun _ => Except.error "unused")
      ⟨false, ⟨[⟨"v1", "Service", "app", "api"⟩], ""⟩⟩ [] [] [] []).2 rfl (by decide) rfl).1 hres)
  · exact (((updateClusterProfiles_spec (fun _ => Except.error "unused")
      ⟨false, ⟨[⟨"v1", "Service", "app", "api"⟩], ""⟩⟩ [] [] [] []).2 rfl (by decide) rfl).2.2)

/-- A found index is below the list length (generalised over the start
accumulator of `findIdx?`). -/
theorem findIdx?_bound {p : ClusterInfo → Bool} :
    ∀ (l : List ClusterInfo) (s i : Nat), List.findIdx? p l s = some i →
      s ≤ i ∧ i - s < l.length := by
  intro l
  induction l with
  | nil =>
    intro s i h
    simp [List.findIdx?] at h
  | cons x xs ih =>
    intro s i h
    rw [List.findIdx?_cons] at h
    by_cases hp : p x = true
    · rw [if_pos hp] at h
      obtain rfl : s = i := Option.some_inj.mp h
      simp
    · rw [if_neg hp] at h
      obtain ⟨h1, h2⟩ := ih (s + 1) i h
      constructor
      · omega
      · simp only [List.length_cons]
        omega

/-- Swap-remove at a valid index is a permutation of ordinary removal at
that index: the removed element is gone and every other element kept. -/
theorem removeAt_perm : ∀ (s : List ClusterInfo) (i : Nat), i < s.length →
    (removeAt s i).Perm (s.eraseIdx i) := by
  intro s
  induction s with
  | nil =>
    intro i hi
    exact absurd hi (by simp)
  | cons a t ih =>
    intro i hi
    cases t with
    | nil =>
      obtain rfl : i = 0 := Nat.lt_one_iff.mp hi
      simp [removeAt]
    | cons b t' =>
      have hne : (b :: t') ≠ ([] : List ClusterInfo) := by simp
      have hx : (b :: t').getLast? = some ((b :: t').getLast hne) :=
        List.getLast?_eq_getLast (b :: t') hne
      have hx2 : (a :: b :: t').getLast? = some ((b :: t').getLast hne) := by
        rw [List.getLast?_cons_cons, hx]
      cases i with
      | zero =>
        unfold removeAt
        rw [hx2]
        dsimp only
        rw [List.set_cons_zero, List.dropLast_cons_of_ne_nil hne, List.eraseIdx_cons_zero]
        have hsplit : (b :: t').dropLast ++ [(b :: t').getLast hne] = b :: t' :=
          List.dropLast_append_getLast hne
        have h1 : (((b :: t').getLast hne) :: (b :: t').dropLast).Perm
            ((b :: t').dropLast ++ [(b :: t').getLast hne]) :=
          (List.perm_append_singleton _ _).symm
        rw [hsplit] at h1
        exact h1
      | succ j =>
        have hj : j < (b :: t').length := by
          simp only [List.length_cons] at hi ⊢
          omega
        have hset : ((b :: t').set j ((b :: t').getLast hne)) ≠ [] := by
          intro habs
          have := congrArg List.length habs
          simp at this
        unfold removeAt
        rw [hx2]
        dsimp only
        rw [List.set_cons_succ, List.dropLast_cons_of_ne_nil hset, List.eraseIdx_cons_succ]
        have hrec := ih j hj
        unfold removeAt at hrec
        rw [hx] at hrec
        dsimp only at hrec
        exact hrec.cons a

/-- C10 — `removeClusterInfoEntry` removes at most one entry: with no
matching entry the status is returned unchanged and no update is issued;
with a first match at index `i` an update is issued and the new list is a
permutation of the old list with exactly the entry at `i` dropped (the
last element is swapped into its slot), one element shorter. -/
theorem removeClusterInfoEntry_spec (infos : List ClusterInfo)
    (clusterNamespace clusterName : String) (clusterType : ClusterType) :
    (infos.findIdx?
        (fun cc => isClusterInfoForCluster cc clusterNamespace clusterName clusterType) = none →
      removeClusterInfoEntry infos clusterNamespace clusterName clusterType = (infos, false)) ∧
    (∀ i, infos.findIdx?
        (fun cc => isClusterInfoForCluster cc clusterNamespace clusterName clusterType) = some i →
      (removeClusterInfoEntry infos clusterNamespace clusterName clusterType).2 = true ∧
      ((removeClusterInfoEntry infos clusterNamespace clusterName clusterType).1).Perm
        (infos.eraseIdx i) ∧
      (removeClusterInfoEntry infos clusterNamespace clusterName clusterType).1.length + 1 =
        infos.length) := by
  constructor
  · intro h
    unfold removeClusterInfoEntry
    rw [h]
  · intro i h
    have hbound := (findIdx?_bound infos 0 i h).2
    rw [Nat.sub_zero] at hbound
    have hperm : (removeAt infos i).Perm (infos.eraseIdx i) := removeAt_perm infos i hbound
    unfold removeClusterInfoEntry
    rw [h]
    dsimp only
    refine ⟨rfl, hperm, ?_⟩
    have hlen := hperm.length_eq
    rw [List.length_eraseIdx] at hlen
    simp only [if_pos hbound] at hlen
    omega

/-- Witness for C10 at concrete inputs (match at index 1 in a two-entry
status list). -/
theorem removeClusterInfoEntry_spec_witness :
    (([⟨⟨"Cluster", "ns2", "c9"⟩, SveltosFeatureStatus.provisioned, some sampleHash, none⟩,
       ⟨sampleCluster, SveltosFeatureStatus.removing, none, none⟩] : List ClusterInfo).findIdx?
        (fun cc => isClusterInfoForCluster cc "ns1" "c1" ClusterType.capi) = some 1) ∧
    ((removeClusterInfoEntry
        [⟨⟨"Cluster", "ns2", "c9"⟩, SveltosFeatureStatus.provisioned, some sampleHash, none⟩,
         ⟨sampleCluster, SveltosFeatureStatus.removing, none, none⟩] "ns1" "c1"
        ClusterType.capi).2 = true ∧
      ((removeClusterInfoEntry
        [⟨⟨"Cluster", "ns2", "c9"⟩, SveltosFeatureStatus.provisioned, some sampleHash, none⟩,
         ⟨sampleCluster, SveltosFeatureStatus.removing, none, none⟩] "ns1" "c1"
        ClusterType.capi).1).Perm
        (([⟨⟨"Cluster", "ns2", "c9"⟩, SveltosFeatureStatus.provisioned, some sampleHash, none⟩,
           ⟨sampleCluster, SveltosFeatureStatus.removing, none, none⟩] :
          List ClusterInfo).eraseIdx 1) ∧
      (removeClusterInfoEntry
        [⟨⟨"Cluster", "ns2", "c9"⟩, SveltosFeatureStatus.provisioned, some sampleHash, none⟩,
         ⟨sampleCluster, SveltosFeatureStatus.removing, none, none⟩] "ns1" "c1"
        ClusterType.capi).1.length + 1 =
        ([⟨⟨"Cluster", "ns2", "c9"⟩, SveltosFeatureStatus.provisioned, some sampleHash, none⟩,
          ⟨sampleCluster, SveltosFeatureStatus.removing, none, none⟩] :
          List ClusterInfo).length) :=
  ⟨by decide,
    (removeClusterInfoEntry_spec
      [⟨⟨"Cluster", "ns2", "c9"⟩, SveltosFeatureStatus.provisioned, some sampleHash, none⟩,
       ⟨sampleCluster, SveltosFeatureStatus.removing, none, none⟩] "ns1" "c1"
      ClusterType.capi).2 1 (by decide)⟩

/-- Two association lists holding the same entries (in any order, with
unique keys) sort to the same list. -/
theorem sortByKey_perm_eq {β : Type} (l1 l2 : List (String × β))
    (hperm : l1.Perm l2) (hnd : (l1.map Prod.fst).Nodup) :
    sortByKey l1 = sortByKey l2 := by
  have hp : (sortByKey l1).Perm (sortByKey l2) :=
    (List.perm_insertionSort keyLE l1).trans
      (hperm.trans (List.perm_insertionSort keyLE l2).symm)
  have hnd1 : ((sortByKey l1).map Prod.fst).Nodup :=
    (((List.perm_insertionSort keyLE l1).map Prod.fst).nodup_iff).mpr hnd
  have hnd2 : ((sortByKey l2).map Prod.fst).Nodup :=
    ((hp.map Prod.fst).nodup_iff).mp hnd1
  have hlt1 : List.Pairwise (fun a b : String × β => a.1 < b.1) (sortByKey l1) := by
    have hle : List.Pairwise keyLE (sortByKey l1) := List.sorted_insertionSort keyLE l1
    have hne : List.Pairwise (fun a b : String × β => a.1 ≠ b.1) (sortByKey l1) :=
      (List.pairwise_map).mp hnd1
    exact (hle.and hne).imp (fun h => lt_of_le_of_ne h.1 h.2)
  have hlt2 : List.Pairwise (fun a b : String × β => a.1 < b.1) (sortByKey l2) := by
    have hle : List.Pairwise keyLE (sortByKey l2) := List.sorted_insertionSort keyLE l2
    have hne : List.Pairwise (fun a b : String × β => a.1 ≠ b.1) (sortByKey l2) :=
      (List.pairwise_map).mp hnd2
    exact (hle.and hne).imp (fun h => lt_of_le_of_ne h.1 h.2)
  haveI : IsAntisymm (String × β) (fun a b => a.1 < b.1) :=
    ⟨fun _ _ h1 h2 => absurd h1 (lt_asymm h2)⟩
  exact List.eq_of_perm_of_sorted hp hlt1 hlt2

/-- Rendering of a string map is invariant to entry order (unique keys). -/
theorem renderStringMap_perm (l1 l2 : List (String × String))
    (hperm : l1.Perm l2) (hnd : (l1.map Prod.fst).Nodup) :
    renderStringMap l1 = renderStringMap l2 := by
  unfold renderStringMap
  rw [sortByKey_perm_eq l1 l2 hperm hnd]

/-- Rendering of a byte map is invariant to entry order (unique keys). -/
theorem renderByteMap_perm (l1 l2 : List (String × List Nat))
    (hperm : l1.Perm l2) (hnd : (l1.map Prod.fst).Nodup) :
    renderByteMap l1 = renderByteMap l2 := by
  unfold renderByteMap
  rw [sortByKey_perm_eq l1 l2 hperm hnd]

/-- Equivalent fetched resources render identically. -/
theorem renderResource_equiv (r1 r2 : FetchedResource) (h : r1.equiv r2) :
    renderResource r1 = renderResource r2 := by
  cases r1 <;> cases r2 <;> simp only [FetchedResource.equiv] at h <;>
    dsimp only [renderResource]
  · exact renderStringMap_perm _ _ h.1 h.2
  · exact renderByteMap_perm _ _ h.1 h.2
  · rw [h]
  · rw [h]

/-- Pointwise-equivalent resource lists render to the same contributions. -/
theorem map_renderResource_eq (r1 r2 : List FetchedResource)
    (h : List.Forall₂ FetchedResource.equiv r1 r2) :
    r1.map renderResource = r2.map renderResource := by
  induction h with
  | nil => rfl
  | cons hab _ ih =>
    simp only [List.map_cons, ih, renderResource_equiv _ _ hab]

/-- C8 — `eventTriggerHash` is a function of the rendered spec, the labels
as a map, and the referenced-resource bodies in fetch order: two
computations over the same spec, the same label map (any insertion order,
keys unique) and pointwise-identical resource bodies (their map-valued
data in any insertion order) produce the same SHA-256 digest. -/
theorem eventTriggerHash_deterministic (e1 e2 : EventTriggerHashInputs)
    (r1 r2 : List FetchedResource)
    (hspec : e1.specRender = e2.specRender)
    (hlab : e1.labels.Perm e2.labels)
    (hnd : (e1.labels.map Prod.fst).Nodup)
    (hres : List.Forall₂ FetchedResource.equiv r1 r2) :
    eventTriggerHash e1 r1 = eventTriggerHash e2 r2 := by
  unfold eventTriggerHash
  rw [hspec, renderStringMap_perm e1.labels e2.labels hlab hnd,
    map_renderResource_eq r1 r2 hres]

/-- Witness for C8 at concrete inputs (labels and ConfigMap data in two
insertion orders). -/
theorem eventTriggerHash_deterministic_witness :
    (⟨"spec", [("b", "2"), ("a", "1")]⟩ : EventTriggerHashInputs).specRender =
      (⟨"spec", [("a", "1"), ("b", "2")]⟩ : EventTriggerHashInputs).specRender ∧
    (⟨"spec", [("b", "2"), ("a", "1")]⟩ : EventTriggerHashInputs).labels.Perm
      (⟨"spec", [("a", "1"), ("b", "2")]⟩ : EventTriggerHashInputs).labels ∧
    ((⟨"spec", [("b", "2"), ("a", "1")]⟩ : EventTriggerHashInputs).labels.map Prod.fst).Nodup ∧
    List.Forall₂ FetchedResource.equiv
      [FetchedResource.configMap [("k", "v"), ("j", "w")]]
      [FetchedResource.configMap [("j", "w"), ("k", "v")]] ∧
    eventTriggerHash ⟨"spec", [("b", "2"), ("a", "1")]⟩
        [FetchedResource.configMap [("k", "v"), ("j", "w")]] =
      eventTriggerHash ⟨"spec", [("a", "1"), ("b", "2")]⟩
        [FetchedResource.configMap [("j", "w"), ("k", "v")]] :=
  ⟨rfl, List.Perm.swap ("a", "1") ("b", "2") [], by decide,
    List.Forall₂.cons ⟨List.Perm.swap ("j", "w") ("k", "v") [], by decide⟩ List.Forall₂.nil,
    eventTriggerHash_deterministic ⟨"spec", [("b", "2"), ("a", "1")]⟩
      ⟨"spec", [("a", "1"), ("b", "2")]⟩ [FetchedResource.configMap [("k", "v"), ("j", "w")]]
      [FetchedResource.configMap [("j", "w"), ("k", "v")]] rfl
      (List.Perm.swap ("a", "1") ("b", "2") []) (by decide)
      (List.Forall₂.cons ⟨List.Perm.swap ("j", "w") ("k", "v") [], by decide⟩ List.Forall₂.nil)⟩
